import Mathlib

/-
Verification development for the `llm_synthetic_facilitation` repository.

Shallow embedding of:
  * `src/sdl/annotation.py`      (`AnnotationConv`)
  * `src/sdl/actors.py`          (`LlmActor`, `LLMUser`, `LLMAnnotator`)
  * `src/sdl/conversation_io.py` (`LLMConvData`, `LLMConvGenerator`)

External effects (file IO, the LLM backend, printing) are modelled by
explicit parameters: the bound generating agent is an arbitrary
state-threading function, the JSON file transport is the identity on the
in-memory document, and timestamps are passed in as values.
-/

universe u v

/-- The last `k` elements of a list, in order.  `collections.deque` with
`maxlen = k` holds exactly the last `k` appended elements. -/
def takeLast {α : Type u} (k : Nat) (l : List α) : List α :=
  (l.reverse.take k).reverse

/-- Embedding of `collections.deque(maxlen=k).append x` on a deque currently
holding `hist` (oldest first): the new element is appended and, when the
deque is full, the oldest element is evicted. -/
def dequeAppend (k : Nat) (hist : List String) (x : String) : List String :=
  takeLast k (hist ++ [x])

/-- Modelled from the spec: `util.format_chat_message` is imported by
`annotation.py` but `util.py` is not part of the provided sources.
Spec section 4.3 formats a history entry as "speaker: message". -/
def format_chat_message (username message : String) : String :=
  username ++ ": " ++ message

/-- State of `AnnotationConv` (annotation.py).  `annotator` is the state of
the bound annotator actor (an `IActor`, possibly stateful through its
model), `conv_id` and `conv_logs` are the `"id"` and `"logs"` entries of
the JSON dict loaded in `__init__`. -/
structure AnnotationConv (σ : Type u) where
  annotator : σ
  history_ctx_len : Nat
  annotation_logs : List (String × String)
  conv_id : String
  conv_logs : List (String × String)
deriving DecidableEq

/-- `AnnotationConv.__init__`: stores the annotator and context length and
starts with an empty annotation log; the transcript dict is loaded from
disk, modelled here by passing its `"id"` and `"logs"` fields directly. -/
def mkAnnotationConv {σ : Type u} (ann : σ) (cid : String) (k : Nat)
    (logs : List (String × String)) : AnnotationConv σ :=
  ⟨ann, k, [], cid, logs⟩

/-- The loop body of `AnnotationConv.begin_annotation`: for each
`(username, message)` pair of the transcript, format it, push it into the
bounded deque, call the annotator on the current window, and record
`(message, annotation)`.  Returns the produced log entries, the window
passed to each `speak` call (instrumentation of the observable call
arguments), and the final annotator state. -/
def annotateAll {σ : Type u} (spk : σ → List String → String × σ)
    (fmt : String → String → String) (k : Nat) :
    List String → σ → List (String × String) →
      List (String × String) × List (List String) × σ
  | _, s, [] => ([], [], s)
  | ctx, s, (u, m) :: rest =>
    let ctx' := dequeAppend k ctx (fmt u m)
    let res := spk s ctx'
    let tail := annotateAll spk fmt k ctx' res.2 rest
    ((m, res.1) :: tail.1, ctx' :: tail.2.1, tail.2.2)

/-- `AnnotationConv.begin_annotation`: runs one pass over the stored
transcript, starting from a fresh empty context deque, and appends the
produced `(message, annotation)` pairs to `annotation_logs`. -/
def beginAnnotationJob {σ : Type u} (spk : σ → List String → String × σ)
    (fmt : String → String → String) (c : AnnotationConv σ) : AnnotationConv σ :=
  let r := annotateAll spk fmt c.history_ctx_len [] c.annotator c.conv_logs
  { c with annotation_logs := c.annotation_logs ++ r.1, annotator := r.2.2 }

/-- The sequence of history windows passed to the annotator's successive
`speak` calls during one `begin_annotation` pass over `c`. -/
def speakWindows {σ : Type u} (spk : σ → List String → String × σ)
    (fmt : String → String → String) (c : AnnotationConv σ) : List (List String) :=
  (annotateAll spk fmt c.history_ctx_len [] c.annotator c.conv_logs).2.1

/-- Thread the annotator through a list of history windows, collecting its
successive answers.  Characterises "the annotator's i-th result". -/
def runSpeak {σ : Type u} (spk : σ → List String → String × σ) :
    σ → List (List String) → List String
  | _, [] => []
  | s, w :: ws => (spk s w).1 :: runSpeak spk (spk s w).2 ws

/-- Reference recursion for the successive deque contents: window `i` is the
deque after pushing the first `i+1` formatted entries. -/
def windowsFrom (k : Nat) : List String → List String → List (List String)
  | _, [] => []
  | ctx, f :: fs => dequeAppend k ctx f :: windowsFrom k (dequeAppend k ctx f) fs

/-- A `{role, content}` entry of a structured prompt (actors.py builds these
as Python dicts). -/
structure ChatMessage where
  role : String
  content : String
deriving DecidableEq

/-- One recorded invocation of the bound generating agent:
the `messages` list and the `stop_list` passed to `model.prompt`. -/
abbrev AgentCall := List ChatMessage × List String

/-- The two concrete subclasses of `LlmActor` (actors.py): `LLMUser` and
`LLMAnnotator` override only `_message_prompt`. -/
inductive ActorVariant where
  | user
  | annotator
deriving DecidableEq

/-- The persona fields of `LlmActor.__init__`.  The bound model is shared,
not owned, and is modelled separately as the state of the `prompt`
function threaded through `speak`. -/
structure LlmActor where
  name : String
  attributes : List String
  context : String
  instructions : String
deriving DecidableEq

/-- `LlmActor._system_prompt`. -/
def LlmActor.system_prompt (a : LlmActor) : ChatMessage :=
  ⟨"system",
    "You are " ++ a.name ++ " " ++ String.intercalate ", " a.attributes ++
      ". Context: " ++ a.context ++ ". Your instructions: " ++ a.instructions ++ "."⟩

/-- `LLMUser._message_prompt` and `LLMAnnotator._message_prompt`. -/
def LlmActor.message_prompt (v : ActorVariant) (a : LlmActor)
    (history : List String) : ChatMessage :=
  match v with
  | .user =>
    ⟨"user", String.intercalate "\n" history ++ "\nUser " ++ a.name ++ " posted:"⟩
  | .annotator =>
    ⟨"user", "Conversation so far:\n\n" ++ String.intercalate "\n" history ++ "\nOutput:"⟩

/-- `LlmActor.speak`.  The bound agent `pr` threads its own state `σ`; the
result records (contents, new agent state, the list of agent invocations
made by this call, the actor after the call).  The last two components
instrument the observable effects: `speak` itself only computes the two
prompts and delegates once to `model.prompt` with `stop_list=["User"]`. -/
def LlmActor.speak {σ : Type u} (pr : σ → List ChatMessage → List String → String × σ)
    (v : ActorVariant) (a : LlmActor) (s : σ) (history : List String) :
    String × σ × List AgentCall × LlmActor :=
  let sys := a.system_prompt
  let msg := LlmActor.message_prompt v a history
  let res := pr s [sys, msg] ["User"]
  (res.1, res.2, [([sys, msg], ["User"])], a)

/-- The variant-independent part of `speak`, applied to an already-built
message prompt `m`; used to state that the two variants differ only in the
`_message_prompt` step. -/
def LlmActor.speakCore {σ : Type u} (pr : σ → List ChatMessage → List String → String × σ)
    (a : LlmActor) (s : σ) (m : ChatMessage) :
    String × σ × List AgentCall × LlmActor :=
  let sys := a.system_prompt
  let res := pr s [sys, m] ["User"]
  (res.1, res.2, [([sys, m], ["User"])], a)

/-- The dictionary produced by `AnnotationConv.to_dict`.  `timestamp` and
the two annotator description strings come from external calls
(`datetime.now`, `type(...).__name__`, `annotator.describe()`) and are
passed in as parameters. -/
structure AnnotationDict where
  conv_id : String
  timestamp : String
  annotator_type : String
  annotator_prompt : String
  ctx_length : Nat
  logs : List (String × String)
deriving DecidableEq

/-- `AnnotationConv.to_dict`. -/
def AnnotationConv.to_dict {σ : Type u} (c : AnnotationConv σ)
    (timestamp annotator_type : String) (describe : σ → String) : AnnotationDict :=
  ⟨c.conv_id, timestamp, annotator_type, describe c.annotator,
    c.history_ctx_len, c.annotation_logs⟩

/-- The fields of the `LLMConvData` dataclass (conversation_io.py).  `Num`
abstracts the numeric value type of `turn_manager_config : dict[str, float]`
(floating point itself is an external JSON concern). -/
structure LLMConvData (Num : Type) where
  context : String
  user_names : List String
  user_attributes : List (List String)
  user_instructions : String
  turn_manager_type : String
  turn_manager_config : List (String × Num)
  conv_len : Int
  history_ctx_len : Int
  moderator_name : Option String
  moderator_attributes : Option (List String)
  moderator_instructions : Option String
deriving DecidableEq

/-- Construction of `LLMConvData`, including the `__post_init__` assert:
the number of actor names and actor attribute lists must be the same.
`none` models the raised `AssertionError`. -/
def mkLLMConvData {Num : Type} (context : String) (user_names : List String)
    (user_attributes : List (List String)) (user_instructions : String)
    (turn_manager_type : String) (turn_manager_config : List (String × Num))
    (conv_len history_ctx_len : Int) (moderator_name : Option String)
    (moderator_attributes : Option (List String))
    (moderator_instructions : Option String) : Option (LLMConvData Num) :=
  if user_names.length = user_attributes.length then
    some ⟨context, user_names, user_attributes, user_instructions,
      turn_manager_type, turn_manager_config, conv_len, history_ctx_len,
      moderator_name, moderator_attributes, moderator_instructions⟩
  else none

/-- The moderator branch of `LLMConvGenerator.produce_conversation`: an
`LLMUser` actor is built only when `moderator_name`, the moderator model,
`moderator_attributes` and `moderator_instructions` are all present;
otherwise the conversation is produced with `moderator = None`. -/
def produceModerator {Num : Type} {Model : Type v} (d : LLMConvData Num)
    (moderator_model : Option Model) : Option LlmActor :=
  match d.moderator_name, moderator_model,
      d.moderator_attributes, d.moderator_instructions with
  | some nm, some _, some attrs, some instr => some ⟨nm, attrs, d.context, instr⟩
  | _, _, _, _ => none

/-- The assert in `LLMConvGenerator.__init__`: a moderator name without a
moderator model is rejected.  `true` means the assert passes. -/
def generatorModeratorCheck {Num : Type} {Model : Type v} (d : LLMConvData Num)
    (moderator_model : Option Model) : Bool :=
  !(moderator_model.isNone && d.moderator_name.isSome)

/-- JSON values as they appear in a serialized `LLMConvData` document. -/
inductive JVal (Num : Type) where
  | s (v : String)
  | ls (v : List String)
  | lls (v : List (List String))
  | d (v : List (String × Num))
  | i (v : Int)
  | null
deriving DecidableEq

def JVal.asStr {Num : Type} : JVal Num → Option String
  | .s v => some v
  | _ => none

def JVal.asListStr {Num : Type} : JVal Num → Option (List String)
  | .ls v => some v
  | _ => none

def JVal.asListListStr {Num : Type} : JVal Num → Option (List (List String))
  | .lls v => some v
  | _ => none

def JVal.asDict {Num : Type} : JVal Num → Option (List (String × Num))
  | .d v => some v
  | _ => none

def JVal.asInt {Num : Type} : JVal Num → Option Int
  | .i v => some v
  | _ => none

def JVal.asOptStr {Num : Type} : JVal Num → Option (Option String)
  | .s v => some (some v)
  | .null => some none
  | _ => none

def JVal.asOptListStr {Num : Type} : JVal Num → Option (Option (List String))
  | .ls v => some (some v)
  | .null => some none
  | _ => none

def optStrVal {Num : Type} : Option String → JVal Num
  | none => .null
  | some v => .s v

def optListStrVal {Num : Type} : Option (List String) → JVal Num
  | none => .null
  | some v => .ls v

/-- `{f.name for f in dataclasses.fields(LLMConvData) if f.init}`. -/
def fieldSet : List String :=
  ["context", "user_names", "user_attributes", "user_instructions",
   "turn_manager_type", "turn_manager_config", "conv_len", "history_ctx_len",
   "moderator_name", "moderator_attributes", "moderator_instructions"]

/-- `dataclasses.asdict` on an `LLMConvData`, as written by `to_json_file`
(the JSON file transport is modelled as the identity on this document). -/
def LLMConvData.asdict {Num : Type} (x : LLMConvData Num) : List (String × JVal Num) :=
  [("context", JVal.s x.context),
   ("user_names", JVal.ls x.user_names),
   ("user_attributes", JVal.lls x.user_attributes),
   ("user_instructions", JVal.s x.user_instructions),
   ("turn_manager_type", JVal.s x.turn_manager_type),
   ("turn_manager_config", JVal.d x.turn_manager_config),
   ("conv_len", JVal.i x.conv_len),
   ("history_ctx_len", JVal.i x.history_ctx_len),
   ("moderator_name", optStrVal x.moderator_name),
   ("moderator_attributes", optListStrVal x.moderator_attributes),
   ("moderator_instructions", optStrVal x.moderator_instructions)]

/-- `LLMConvData(**filtered_arg_dict)` on an already key-filtered document:
each field is read from the document (required fields must be present,
defaulted fields fall back to their dataclass defaults), then
`mkLLMConvData` applies the `__post_init__` check. -/
def fromFiltered {Num : Type} (filtered : List (String × JVal Num)) :
    Option (LLMConvData Num) := do
  let context : String ← (filtered.lookup "context").bind JVal.asStr
  let user_names : List String ← (filtered.lookup "user_names").bind JVal.asListStr
  let user_attributes : List (List String) ← (filtered.lookup "user_attributes").bind JVal.asListListStr
  let user_instructions : String ← (filtered.lookup "user_instructions").bind JVal.asStr
  let turn_manager_type : String ← (filtered.lookup "turn_manager_type").bind JVal.asStr
  let turn_manager_config : List (String × Num) ← match filtered.lookup "turn_manager_config" with
    | none => some ([] : List (String × Num))
    | some v => JVal.asDict v
  let conv_len : Int ← match filtered.lookup "conv_len" with
    | none => some (4 : Int)
    | some v => JVal.asInt v
  let history_ctx_len : Int ← match filtered.lookup "history_ctx_len" with
    | none => some (4 : Int)
    | some v => JVal.asInt v
  let moderator_name : Option String ← match filtered.lookup "moderator_name" with
    | none => some (none : Option String)
    | some v => JVal.asOptStr v
  let moderator_attributes : Option (List String) ← match filtered.lookup "moderator_attributes" with
    | none => some (none : Option (List String))
    | some v => JVal.asOptListStr v
  let moderator_instructions : Option String ← match filtered.lookup "moderator_instructions" with
    | none => some (none : Option String)
    | some v => JVal.asOptStr v
  mkLLMConvData context user_names user_attributes user_instructions
    turn_manager_type turn_manager_config conv_len history_ctx_len
    moderator_name moderator_attributes moderator_instructions

/-- `LLMConvData.from_json_file` on the in-memory document: keys outside the
dataclass field set are filtered out, then the instance is constructed. -/
def fromJsonDoc {Num : Type} (doc : List (String × JVal Num)) :
    Option (LLMConvData Num) :=
  fromFiltered (doc.filter fun p => fieldSet.contains p.1)

/-- Concrete annotator used by witnesses: joins the window it was shown. -/
def wSpk : Unit → List String → String × Unit :=
  fun s w => (String.intercalate "|" w, s)

/-- Concrete 3-message transcript used by witnesses. -/
def wT : List (String × String) :=
  [("u1", "m1"), ("u2", "m2"), ("u3", "m3")]

/-- Concrete `AnnotationConv` for the section-8 scenario: 3-message
transcript, `history_ctx_len = 1`. -/
def c3Conv : AnnotationConv Unit := mkAnnotationConv () "c3" 1 wT

/-- Concrete valid `LLMConvData` over `Int` used by witnesses. -/
def d0 : LLMConvData Int :=
  ⟨"topic", ["alice"], [["kind"]], "chat", "round_robin", [("p", 1)], 4, 4,
    some "mod", some ["strict"], some "moderate"⟩

theorem takeLast_nil {α : Type u} (k : Nat) : takeLast k ([] : List α) = [] := by
  simp [takeLast]

theorem takeLast_length {α : Type u} (k : Nat) (l : List α) :
    (takeLast k l).length = min k l.length := by
  simp [takeLast]

theorem dequeAppend_takeLast (k : Nat) (l : List String) (f : String) :
    dequeAppend k (takeLast k l) f = takeLast k (l ++ [f]) := by
  unfold dequeAppend takeLast
  cases k with
  | zero => simp
  | succ n => simp [List.take_take, Nat.min_eq_left (Nat.le_succ n)]

theorem foldl_dequeAppend (k : Nat) (fs : List String) :
    ∀ l : List String,
      List.foldl (dequeAppend k) (takeLast k l) fs = takeLast k (l ++ fs) := by
  induction fs with
  | nil => intro l; simp
  | cons f fs ih =>
    intro l
    rw [List.foldl_cons, dequeAppend_takeLast, ih (l ++ [f])]
    simp

theorem foldl_dequeAppend_nil (k : Nat) (fs : List String) :
    List.foldl (dequeAppend k) [] fs = takeLast k fs := by
  have h := foldl_dequeAppend k fs []
  rw [takeLast_nil] at h
  simpa using h

theorem windowsFrom_length (k : Nat) (fs : List String) :
    ∀ ctx, (windowsFrom k ctx fs).length = fs.length := by
  induction fs with
  | nil => intro ctx; simp [windowsFrom]
  | cons f fs ih => intro ctx; simp [windowsFrom, ih]

theorem windowsFrom_getD (k : Nat) (fs : List String) :
    ∀ (ctx : List String) (i : Nat), i < fs.length →
      (windowsFrom k ctx fs).getD i [] =
        List.foldl (dequeAppend k) ctx (fs.take (i + 1)) := by
  induction fs with
  | nil => intro ctx i h; simp at h
  | cons f fs ih =>
    intro ctx i h
    cases i with
    | zero => simp [windowsFrom]
    | succ n =>
      have hn : n < fs.length := by simpa using h
      simp only [windowsFrom, List.getD_cons_succ, List.take_succ_cons, List.foldl_cons]
      exact ih (dequeAppend k ctx f) n hn

theorem annotateAll_windows {σ : Type u} (spk : σ → List String → String × σ)
    (fmt : String → String → String) (k : Nat) (t : List (String × String)) :
    ∀ (ctx : List String) (s : σ),
      (annotateAll spk fmt k ctx s t).2.1 =
        windowsFrom k ctx (t.map fun p => fmt p.1 p.2) := by
  induction t with
  | nil => intro ctx s; simp [annotateAll, windowsFrom]
  | cons p t ih =>
    intro ctx s
    obtain ⟨u, m⟩ := p
    simp only [annotateAll, windowsFrom, List.map_cons]
    rw [ih]

theorem annotateAll_log_length {σ : Type u} (spk : σ → List String → String × σ)
    (fmt : String → String → String) (k : Nat) (t : List (String × String)) :
    ∀ (ctx : List String) (s : σ),
      (annotateAll spk fmt k ctx s t).1.length = t.length := by
  induction t with
  | nil => intro ctx s; simp [annotateAll]
  | cons p t ih =>
    intro ctx s
    obtain ⟨u, m⟩ := p
    simp only [annotateAll, List.length_cons]
    rw [ih]

theorem annotateAll_fst_map {σ : Type u} (spk : σ → List String → String × σ)
    (fmt : String → String → String) (k : Nat) (t : List (String × String)) :
    ∀ (ctx : List String) (s : σ),
      (annotateAll spk fmt k ctx s t).1.map Prod.fst = t.map Prod.snd := by
  induction t with
  | nil => intro ctx s; simp [annotateAll]
  | cons p t ih =>
    intro ctx s
    obtain ⟨u, m⟩ := p
    simp only [annotateAll, List.map_cons]
    rw [ih]

theorem annotateAll_snd_map {σ : Type u} (spk : σ → List String → String × σ)
    (fmt : String → String → String) (k : Nat) (t : List (String × String)) :
    ∀ (ctx : List String) (s : σ),
      (annotateAll spk fmt k ctx s t).1.map Prod.snd =
        runSpeak spk s (annotateAll spk fmt k ctx s t).2.1 := by
  induction t with
  | nil => intro ctx s; simp [annotateAll, runSpeak]
  | cons p t ih =>
    intro ctx s
    obtain ⟨u, m⟩ := p
    simp only [annotateAll, List.map_cons, runSpeak]
    rw [ih]

theorem beginAnnotationJob_logs {σ : Type u} (spk : σ → List String → String × σ)
    (fmt : String → String → String) (c : AnnotationConv σ) :
    (beginAnnotationJob spk fmt c).annotation_logs =
      c.annotation_logs ++
        (annotateAll spk fmt c.history_ctx_len [] c.annotator c.conv_logs).1 := rfl

theorem beginAnnotationJob_ctx_len {σ : Type u} (spk : σ → List String → String × σ)
    (fmt : String → String → String) (c : AnnotationConv σ) :
    (beginAnnotationJob spk fmt c).history_ctx_len = c.history_ctx_len := rfl

theorem beginAnnotationJob_conv_logs {σ : Type u} (spk : σ → List String → String × σ)
    (fmt : String → String → String) (c : AnnotationConv σ) :
    (beginAnnotationJob spk fmt c).conv_logs = c.conv_logs := rfl

theorem beginAnnotationJob_state {σ : Type u} (spk : σ → List String → String × σ)
    (fmt : String → String → String) (c : AnnotationConv σ) :
    (beginAnnotationJob spk fmt c).annotator =
      (annotateAll spk fmt c.history_ctx_len [] c.annotator c.conv_logs).2.2 := rfl

theorem fromFiltered_asdict {Num : Type} (cx : String) (un : List String)
    (ua : List (List String)) (ui tmt : String) (tmc : List (String × Num))
    (cl hcl : Int) (mn : Option String) (ma : Option (List String))
    (mi : Option String) :
    fromFiltered (LLMConvData.asdict ⟨cx, un, ua, ui, tmt, tmc, cl, hcl, mn, ma, mi⟩) =
      mkLLMConvData cx un ua ui tmt tmc cl hcl mn ma mi := by
  cases mn <;> cases ma <;> cases mi <;> rfl

/-- C1: during `AnnotationConv.begin_annotation` over any transcript with any
`history_ctx_len` `k`, the window passed to the annotator's `i`-th `speak`
call (1-indexed `i`, here index `i` 0-indexed so the call is the
`(i+1)`-th) holds at most `k` entries, and equals the last
`min(k, i+1)` formatted transcript entries among the first `i+1`, in
transcript order. -/
theorem annotation_window_spec {σ : Type u} (spk : σ → List String → String × σ)
    (fmt : String → String → String) (a0 : σ) (cid : String) (k : Nat)
    (t : List (String × String)) (i : Nat)
    (h : i < (speakWindows spk fmt (mkAnnotationConv a0 cid k t)).length) :
    ((speakWindows spk fmt (mkAnnotationConv a0 cid k t)).getD i []).length ≤ k ∧
    (speakWindows spk fmt (mkAnnotationConv a0 cid k t)).getD i [] =
      takeLast (min k (i + 1)) ((t.map fun p => fmt p.1 p.2).take (i + 1)) := by
  have hw : speakWindows spk fmt (mkAnnotationConv a0 cid k t) =
      windowsFrom k [] (t.map fun p => fmt p.1 p.2) := by
    simp [speakWindows, mkAnnotationConv, annotateAll_windows]
  set fs := t.map fun p => fmt p.1 p.2
  have hi : i < fs.length := by
    rw [hw, windowsFrom_length] at h
    exact h
  have hg : (windowsFrom k [] fs).getD i [] =
      List.foldl (dequeAppend k) [] (fs.take (i + 1)) :=
    windowsFrom_getD k fs [] i hi
  have hfold : List.foldl (dequeAppend k) [] (fs.take (i + 1)) =
      takeLast k (fs.take (i + 1)) := foldl_dequeAppend_nil k _
  have hmin : takeLast k (fs.take (i + 1)) =
      takeLast (min k (i + 1)) (fs.take (i + 1)) := by
    unfold takeLast
    have hr : ((fs.take (i + 1)).reverse).length ≤ i + 1 := by
      simp [List.length_take]
    rcases Nat.le_total k (i + 1) with hk | hk
    · rw [Nat.min_eq_left hk]
    · rw [Nat.min_eq_right hk, List.take_of_length_le hr,
        List.take_of_length_le (le_trans hr hk)]
  constructor
  · rw [hw, hg, hfold, takeLast_length]
    exact Nat.min_le_left _ _
  · rw [hw, hg, hfold, hmin]

/-- Witness for C1 at the concrete 3-message transcript `wT` with
`history_ctx_len = 2`, third annotator call. -/
theorem annotation_window_spec_witness :
    2 < (speakWindows wSpk format_chat_message (mkAnnotationConv () "0" 2 wT)).length ∧
    (((speakWindows wSpk format_chat_message (mkAnnotationConv () "0" 2 wT)).getD 2 []).length ≤ 2 ∧
      (speakWindows wSpk format_chat_message (mkAnnotationConv () "0" 2 wT)).getD 2 [] =
        takeLast (min 2 (2 + 1)) ((wT.map fun p => format_chat_message p.1 p.2).take (2 + 1))) :=
  ⟨by decide, annotation_window_spec wSpk format_chat_message () "0" 2 wT 2 (by decide)⟩

/-- C2: after `begin_annotation` over an `n`-message transcript, the
annotation log has exactly `n` entries, in input order; the `i`-th entry
pairs the `i`-th original raw message with the annotator's `i`-th
answer (the results of threading the annotator through the successive
history windows). -/
theorem annotation_log_pairs {σ : Type u} (spk : σ → List String → String × σ)
    (fmt : String → String → String) (a0 : σ) (cid : String) (k : Nat)
    (t : List (String × String)) :
    (beginAnnotationJob spk fmt (mkAnnotationConv a0 cid k t)).annotation_logs.length = t.length ∧
    (beginAnnotationJob spk fmt (mkAnnotationConv a0 cid k t)).annotation_logs.map Prod.fst =
      t.map Prod.snd ∧
    (beginAnnotationJob spk fmt (mkAnnotationConv a0 cid k t)).annotation_logs.map Prod.snd =
      runSpeak spk a0 (speakWindows spk fmt (mkAnnotationConv a0 cid k t)) := by
  have hlogs : (beginAnnotationJob spk fmt (mkAnnotationConv a0 cid k t)).annotation_logs =
      (annotateAll spk fmt k [] a0 t).1 := by
    simp [beginAnnotationJob, mkAnnotationConv]
  rw [hlogs]
  refine ⟨annotateAll_log_length spk fmt k t [] a0,
    annotateAll_fst_map spk fmt k t [] a0, ?_⟩
  rw [annotateAll_snd_map]
  rfl

/-- Counterexample to C3 as stated: over the 3-message transcript `wT` with
`history_ctx_len = 1`, it is not the case that the annotation log has 3
entries and the window passed to the annotator's second `speak` call is
exactly the formatted message 1 — the second window holds message 2. -/
theorem annotation_scenario_counterexample :
    ¬ ((beginAnnotationJob wSpk format_chat_message c3Conv).annotation_logs.length = 3 ∧
       (speakWindows wSpk format_chat_message c3Conv).getD 1 [] =
         [format_chat_message "u1" "m1"]) := by
  decide

/-- C3 (amended): over any 3-message transcript with `history_ctx_len = 1`,
the annotation log has exactly 3 entries, and the window passed to the
annotator's second `speak` call holds only the formatted message 2 (the
message being annotated), because `begin_annotation` pushes each formatted
message before calling `speak`. -/
theorem annotation_scenario_amended {σ : Type u} (spk : σ → List String → String × σ)
    (fmt : String → String → String) (a0 : σ) (cid u1 m1 u2 m2 u3 m3 : String) :
    (beginAnnotationJob spk fmt
        (mkAnnotationConv a0 cid 1 [(u1, m1), (u2, m2), (u3, m3)])).annotation_logs.length = 3 ∧
    (speakWindows spk fmt
        (mkAnnotationConv a0 cid 1 [(u1, m1), (u2, m2), (u3, m3)])).getD 1 [] = [fmt u2 m2] :=
  ⟨rfl, rfl⟩

/-- C4: `LLMConvData` construction succeeds exactly when `user_names` and
`user_attributes` have the same length (the `__post_init__` assert), and in
particular fails on `user_names = ["a","b"]`, `user_attributes = [["x"]]`. -/
theorem convdata_length_invariant :
    (∀ (Num : Type) (cx ui tmt : String) (un : List String)
        (ua : List (List String)) (tmc : List (String × Num)) (cl hcl : Int)
        (mn : Option String) (ma : Option (List String)) (mi : Option String),
      (mkLLMConvData cx un ua ui tmt tmc cl hcl mn ma mi).isSome ↔
        un.length = ua.length) ∧
    mkLLMConvData "ctx" ["a", "b"] [["x"]] "i" "round_robin"
        ([] : List (String × Int)) 4 4 none none none = none := by
  constructor
  · intro Num cx ui tmt un ua tmc cl hcl mn ma mi
    unfold mkLLMConvData
    split <;> simp_all
  · decide

/-- Counterexample to C5 as stated: a configuration whose moderator fields
are partially specified (`moderator_name` present, the other two absent)
is accepted at construction time — no error is raised. -/
theorem moderator_missing_counterexample :
    mkLLMConvData "c" ["a"] [["x"]] "i" "round_robin" ([] : List (String × Int)) 4 4
        (some "mod") none none ≠ none := by
  decide

/-- C5 (amended): `LLMConvData` construction never inspects the moderator
fields (success depends only on the name/attribute length invariant), and
`produce_conversation` silently builds the conversation without a
moderator unless `moderator_name`, the moderator model,
`moderator_attributes` and `moderator_instructions` are all present; the
only moderator-related assert is `LLMConvGenerator.__init__` rejecting a
moderator name without a moderator model. -/
theorem moderator_fields_amended :
    (∀ (Num : Type) (cx ui tmt : String) (un : List String)
        (ua : List (List String)) (tmc : List (String × Num)) (cl hcl : Int)
        (mn mn' : Option String) (ma ma' : Option (List String))
        (mi mi' : Option String),
      (mkLLMConvData cx un ua ui tmt tmc cl hcl mn ma mi).isSome =
        (mkLLMConvData cx un ua ui tmt tmc cl hcl mn' ma' mi').isSome) ∧
    (∀ (Num : Type) (Model : Type v) (d : LLMConvData Num) (mm : Option Model),
      (produceModerator d mm).isSome ↔
        (d.moderator_name.isSome ∧ mm.isSome ∧
          d.moderator_attributes.isSome ∧ d.moderator_instructions.isSome)) ∧
    (∀ (Num : Type) (Model : Type v) (d : LLMConvData Num) (mm : Option Model),
      generatorModeratorCheck d mm = false ↔
        (mm.isNone ∧ d.moderator_name.isSome)) := by
  refine ⟨?_, ?_, ?_⟩
  · intro Num cx ui tmt un ua tmc cl hcl mn mn' ma ma' mi mi'
    unfold mkLLMConvData
    split <;> simp
  · intro Num Model d mm
    obtain ⟨cx, un, ua, ui, tmt, tmc, cl, hcl, mn, ma, mi⟩ := d
    cases mn <;> cases mm <;> cases ma <;> cases mi <;>
      simp [produceModerator]
  · intro Num Model d mm
    cases mm <;> cases hmn : d.moderator_name <;>
      simp [generatorModeratorCheck, hmn]

/-- C6: `LlmActor.speak` makes exactly one call to the bound generating
agent, with exactly the two-part prompt (system prompt, variant message
prompt) and the stop-marker list `["User"]`, returns the agent's response
and state unchanged, and leaves the actor itself unchanged. -/
theorem actor_speak_contract {σ : Type u}
    (pr : σ → List ChatMessage → List String → String × σ) (v : ActorVariant)
    (a : LlmActor) (s : σ) (history : List String) :
    (LlmActor.speak pr v a s history).2.2.1 =
      [([a.system_prompt, LlmActor.message_prompt v a history], ["User"])] ∧
    (LlmActor.speak pr v a s history).2.2.1.length = 1 ∧
    (LlmActor.speak pr v a s history).1 =
      (pr s [a.system_prompt, LlmActor.message_prompt v a history] ["User"]).1 ∧
    (LlmActor.speak pr v a s history).2.1 =
      (pr s [a.system_prompt, LlmActor.message_prompt v a history] ["User"]).2 ∧
    (LlmActor.speak pr v a s history).2.2.2 = a :=
  ⟨rfl, rfl, rfl, rfl, rfl⟩

/-- C7: the User variant's message prompt is the newline-joined history
followed by a cue naming the actor as next poster; the Annotator variant's
is the newline-joined history framed as the conversation so far followed
by an output cue; and `speak` factors through the shared
variant-independent core applied to the variant's message prompt, so the
variants differ only in that step (the system prompt construction is the
same shared function for both). -/
theorem actor_variant_prompts (a : LlmActor) (history : List String) :
    LlmActor.message_prompt ActorVariant.user a history =
      ⟨"user", String.intercalate "\n" history ++ "\nUser " ++ a.name ++ " posted:"⟩ ∧
    LlmActor.message_prompt ActorVariant.annotator a history =
      ⟨"user", "Conversation so far:\n\n" ++ String.intercalate "\n" history ++ "\nOutput:"⟩ ∧
    (∀ (σ : Type u) (pr : σ → List ChatMessage → List String → String × σ)
        (v : ActorVariant) (s : σ),
      LlmActor.speak pr v a s history =
        LlmActor.speakCore pr a s (LlmActor.message_prompt v a history)) :=
  ⟨rfl, rfl, fun _ _ _ _ => rfl⟩

/-- C8: the `logs` field of the document exported by
`AnnotationConv.to_dict` after a `begin_annotation` run is exactly the
ordered sequence of `(original_message, annotation)` pairs produced during
the run; re-reading that field from the exported document yields that same
sequence. -/
theorem annotation_export_roundtrip {σ : Type u} (spk : σ → List String → String × σ)
    (fmt : String → String → String) (a0 : σ) (cid : String) (k : Nat)
    (t : List (String × String)) (ts ty : String) (desc : σ → String) :
    (AnnotationConv.to_dict (beginAnnotationJob spk fmt (mkAnnotationConv a0 cid k t))
        ts ty desc).logs =
      (beginAnnotationJob spk fmt (mkAnnotationConv a0 cid k t)).annotation_logs ∧
    (AnnotationConv.to_dict (beginAnnotationJob spk fmt (mkAnnotationConv a0 cid k t))
        ts ty desc).logs = (annotateAll spk fmt k [] a0 t).1 := by
  refine ⟨rfl, ?_⟩
  simp [AnnotationConv.to_dict, beginAnnotationJob, mkAnnotationConv]

/-- C9: for a valid `LLMConvData`, writing it with `to_json_file`
(`dataclasses.asdict`) and reconstructing with `from_json_file` yields an
instance equal to the original in every field, and keys outside the
dataclass field set in the input document are filtered out rather than
causing a failure. -/
theorem convdata_json_roundtrip {Num : Type} (d : LLMConvData Num)
    (h : d.user_names.length = d.user_attributes.length) :
    fromJsonDoc d.asdict = some d ∧
    ∀ (key : String) (jv : JVal Num), fieldSet.contains key = false →
      fromJsonDoc (d.asdict ++ [(key, jv)]) = some d := by
  obtain ⟨cx, un, ua, ui, tmt, tmc, cl, hcl, mn, ma, mi⟩ := d
  have hfilter : (LLMConvData.asdict
      (⟨cx, un, ua, ui, tmt, tmc, cl, hcl, mn, ma, mi⟩ : LLMConvData Num)).filter
        (fun p => fieldSet.contains p.1) =
      LLMConvData.asdict ⟨cx, un, ua, ui, tmt, tmc, cl, hcl, mn, ma, mi⟩ := rfl
  have hmain : fromFiltered
      (LLMConvData.asdict (⟨cx, un, ua, ui, tmt, tmc, cl, hcl, mn, ma, mi⟩ : LLMConvData Num)) =
      some ⟨cx, un, ua, ui, tmt, tmc, cl, hcl, mn, ma, mi⟩ := by
    rw [fromFiltered_asdict]
    unfold mkLLMConvData
    rw [if_pos h]
  constructor
  · show fromFiltered _ = _
    rw [hfilter]
    exact hmain
  · intro key jv hk
    show fromFiltered _ = _
    rw [List.filter_append, hfilter]
    have hk' : key ∉ fieldSet := by simpa using hk
    have h2 : ([(key, jv)].filter fun p => fieldSet.contains p.1) = [] := by
      simp [List.filter_cons, hk']
    rw [h2, List.append_nil]
    exact hmain

/-- Witness for C9 at the concrete valid configuration `d0` and the unknown
key `"junk"`. -/
theorem convdata_json_roundtrip_witness :
    d0.user_names.length = d0.user_attributes.length ∧
    fieldSet.contains "junk" = false ∧
    fromJsonDoc d0.asdict = some d0 ∧
    fromJsonDoc (d0.asdict ++ [("junk", JVal.s "z")]) = some d0 :=
  ⟨by decide, by decide, (convdata_json_roundtrip d0 (by decide)).1,
    (convdata_json_roundtrip d0 (by decide)).2 "junk" (JVal.s "z") (by decide)⟩

/-- C10: `begin_annotation` does not reset the annotation log — a second
call on the same instance appends a second full pass, giving `2 * n` log
entries over an `n`-message transcript — while the history window sequence
of each pass restarts from the empty deque (the windows of the second pass
equal those of the first). -/
theorem annotation_double_run {σ : Type u} (spk : σ → List String → String × σ)
    (fmt : String → String → String) (a0 : σ) (cid : String) (k : Nat)
    (t : List (String × String)) :
    (beginAnnotationJob spk fmt (beginAnnotationJob spk fmt
        (mkAnnotationConv a0 cid k t))).annotation_logs.length = 2 * t.length ∧
    (beginAnnotationJob spk fmt (beginAnnotationJob spk fmt
        (mkAnnotationConv a0 cid k t))).annotation_logs =
      (annotateAll spk fmt k [] a0 t).1 ++
        (annotateAll spk fmt k [] (annotateAll spk fmt k [] a0 t).2.2 t).1 ∧
    speakWindows spk fmt (beginAnnotationJob spk fmt (mkAnnotationConv a0 cid k t)) =
      speakWindows spk fmt (mkAnnotationConv a0 cid k t) := by
  refine ⟨?_, ?_, ?_⟩
  · rw [beginAnnotationJob_logs, beginAnnotationJob_logs, beginAnnotationJob_ctx_len,
      beginAnnotationJob_conv_logs, beginAnnotationJob_state]
    simp only [mkAnnotationConv, List.length_append, List.nil_append]
    rw [annotateAll_log_length, annotateAll_log_length]
    omega
  · rw [beginAnnotationJob_logs, beginAnnotationJob_logs, beginAnnotationJob_ctx_len,
      beginAnnotationJob_conv_logs, beginAnnotationJob_state]
    simp [mkAnnotationConv]
  · simp only [speakWindows, beginAnnotationJob_ctx_len, beginAnnotationJob_conv_logs,
      beginAnnotationJob_state]
    simp only [mkAnnotationConv]
    rw [annotateAll_windows, annotateAll_windows]
